import Mathlib

set_option maxRecDepth 100000

/-!
Shallow embedding of the parquet-extractor pipeline (`main.py`, `api.py`)
together with theorems settling the specification's claims.

Conventions of the embedding:
* Python strings are Lean `String`s (lists of Unicode scalar values).
  Character-class predicates (`str.isalnum`, `\s`, `\d`) are modelled
  exactly on the code points that actually occur in this development
  (everything below 256); this is documented at each definition.
* File writes are modelled as the list of `(filename, contents)` pairs in
  the order the program writes them; the filesystem consulted by the
  remote extractor is a list of existing filenames.
* A Python exception that escapes a function is an `Except.error`;
  exceptions swallowed by a `try/except` that returns a dictionary stay in
  the `Except.ok` branch.
-/

/-! ## Python string primitives -/

/-- Python whitespace as matched by `str.strip()` and the regex class
`\s`, restricted to the ASCII range (space, tab, newline, carriage
return, vertical tab, form feed). -/
def pyIsSpace (c : Char) : Bool :=
  c = ' ' || c = '\t' || c = '\n' || c = '\r' || c = '\x0b' || c = '\x0c'

/-- Python `str.isalnum` on one character.  Exact on every code point
below 256: ASCII alphanumerics, the Latin-1 ordinal/numeric signs
(ª ² ³ µ ¹ º ¼ ½ ¾) and the Latin-1 letters (`0xC0`–`0xFF` except the
multiplication and division signs).  The model's character universe is
restricted to Latin-1, so higher code points are mapped to `false`; no
theorem in this file depends on that region. -/
def pyIsAlnum (c : Char) : Bool :=
  if c.toNat < 128 then c.isAlphanum
  else if c.toNat ≤ 255 then
    c.toNat = 170 || c.toNat = 178 || c.toNat = 179 || c.toNat = 181 ||
    c.toNat = 185 || c.toNat = 186 || c.toNat = 188 || c.toNat = 189 ||
    c.toNat = 190 || (192 ≤ c.toNat && c.toNat ≠ 215 && c.toNat ≠ 247)
  else false

/-- Strip Python whitespace from both ends of a character list
(`str.strip()`). -/
def stripChars (l : List Char) : List Char :=
  ((l.dropWhile pyIsSpace).reverse.dropWhile pyIsSpace).reverse

/-- Python `str.strip()`. -/
def pyStrip (s : String) : String := ⟨stripChars s.data⟩

/-- Python `sep.join(xs)`. -/
def pyJoin (sep : String) : List String → String
  | [] => ""
  | [x] => x
  | x :: y :: xs => x ++ sep ++ pyJoin sep (y :: xs)

/-- Concatenation of a list of strings (Python `"".join(xs)`). -/
def concatStrs : List String → String
  | [] => ""
  | x :: xs => x ++ concatStrs xs

/-- Python `s.split(c)` at the character-list level: splits on every
occurrence of `c0`, keeping empty pieces. -/
def splitCh (c0 : Char) : List Char → List (List Char)
  | [] => [[]]
  | c :: cs =>
    let r := splitCh c0 cs
    if c = c0 then [] :: r
    else (c :: r.headI) :: r.tail

/-- Python `s.split('\n')`. -/
def splitLines (s : String) : List String :=
  (splitCh '\n' s.data).map (fun l => ⟨l⟩)

/-- Python `s.zfill(n)` for strings of digits: left-pad with zeros up to
width `n`. -/
def zfill (n : Nat) (s : String) : String :=
  if s.length < n then ⟨List.replicate (n - s.length) '0'⟩ ++ s else s

/-- The Python format `f"{i:04d}"` for a natural number. -/
def fmt04 (i : Nat) : String := zfill 4 (toString i)

/-! ## Identifier/filename sanitizer

`main.py` lines 79–80 and 168–169 build filenames with the same inline
pipeline:

    "".join(c if c.isalnum() or c in " -_" else "_" for c in s)
    .strip().replace(" ", "_")[:100]

We keep the truncation width as a parameter `maxLen`; both call sites in
the source instantiate it with 100. -/

/-- One character of the filename-sanitizing join: keep alphanumerics,
space, hyphen and underscore, replace everything else with underscore. -/
def keepIdChar (c : Char) : Char :=
  if pyIsAlnum c || c = ' ' || c = '-' || c = '_' then c else '_'

/-- The identifier sanitization of `main.py` (lines 79–80 / 168–169). -/
def sanitize_identifier (maxLen : Nat) (s : String) : String :=
  let kept := s.data.map keepIdChar
  let stripped := stripChars kept
  let replaced := stripped.map (fun c => if c = ' ' then '_' else c)
  ⟨replaced.take maxLen⟩

/-! ### Claim C2 -/

lemma mem_stripChars {c : Char} {l : List Char} (h : c ∈ stripChars l) : c ∈ l := by
  unfold stripChars at h
  rw [List.mem_reverse] at h
  have h2 := (List.dropWhile_sublist (l := (l.dropWhile pyIsSpace).reverse)
    (p := pyIsSpace)).mem h
  rw [List.mem_reverse] at h2
  exact (List.dropWhile_sublist (l := l) (p := pyIsSpace)).mem h2

lemma sanitize_char_cases (maxLen : Nat) (s : String) :
    ∀ c ∈ (sanitize_identifier maxLen s).data,
      c = '-' ∨ c = '_' ∨ (c ∈ s.data ∧ pyIsAlnum c = true) := by
  intro c hc
  unfold sanitize_identifier at hc
  simp only [String.data] at hc
  have hc1 : c ∈ (stripChars (s.data.map keepIdChar)).map
      (fun c => if c = ' ' then '_' else c) :=
    (List.take_sublist _ _).mem hc
  rcases List.mem_map.1 hc1 with ⟨c0, hc0, rfl⟩
  have hc0' : c0 ∈ s.data.map keepIdChar := mem_stripChars hc0
  rcases List.mem_map.1 hc0' with ⟨c1, hmem1, rfl⟩
  unfold keepIdChar
  by_cases hk : (pyIsAlnum c1 || c1 = ' ' || c1 = '-' || c1 = '_') = true
  · simp only [hk, if_true]
    by_cases hsp : c1 = ' '
    · simp [hsp]
    · simp only [hsp, if_false, if_neg hsp]
      rcases Bool.or_eq_true .. ▸ hk with h | h
      · rcases Bool.or_eq_true .. ▸ h with h' | h'
        · rcases Bool.or_eq_true .. ▸ h' with h'' | h''
          · exact Or.inr (Or.inr ⟨hmem1, h''⟩)
          · exact absurd (by simpa using h'') hsp
        · exact Or.inl (by simpa using h')
      · exact Or.inr (Or.inl (by simpa using h))
  · simp only [hk, if_false]
    simp

/-- C2 (amended): the identifier sanitization always returns a string of
length at most `maxLen`; every output character is a Python alphanumeric,
a hyphen or an underscore (never a space); and when the input is pure
ASCII, every output character lies in `[A-Za-z0-9_-]`. -/
theorem C2_identifier_safety_amended (maxLen : Nat) (s : String) :
    (sanitize_identifier maxLen s).length ≤ maxLen
    ∧ (∀ c ∈ (sanitize_identifier maxLen s).data,
        pyIsAlnum c = true ∨ c = '-' ∨ c = '_')
    ∧ ((∀ c ∈ s.data, c.toNat < 128) →
        ∀ c ∈ (sanitize_identifier maxLen s).data,
          c.isAlphanum = true ∨ c = '-' ∨ c = '_') := by
  refine ⟨?_, ?_, ?_⟩
  · show (List.take maxLen _).length ≤ maxLen
    simp [List.length_take]
  · intro c hc
    rcases sanitize_char_cases maxLen s c hc with h | h | ⟨_, h⟩
    · exact Or.inr (Or.inl h)
    · exact Or.inr (Or.inr h)
    · exact Or.inl h
  · intro hascii c hc
    rcases sanitize_char_cases maxLen s c hc with h | h | ⟨hmem, hal⟩
    · exact Or.inr (Or.inl h)
    · exact Or.inr (Or.inr h)
    · have hlt := hascii c hmem
      unfold pyIsAlnum at hal
      rw [if_pos hlt] at hal
      exact Or.inl hal

/-- C2 witness: the amended theorem applied at `maxLen = 100`,
`s = "a b!"`, with the ASCII hypothesis discharged concretely. -/
theorem C2_identifier_safety_witness :
    (sanitize_identifier 100 "a b!").length ≤ 100
    ∧ (∀ c ∈ (sanitize_identifier 100 "a b!").data,
        pyIsAlnum c = true ∨ c = '-' ∨ c = '_')
    ∧ (∀ c ∈ (sanitize_identifier 100 "a b!").data,
        c.isAlphanum = true ∨ c = '-' ∨ c = '_') := by
  obtain ⟨h1, h2, h3⟩ := C2_identifier_safety_amended 100 "a b!"
  exact ⟨h1, h2, h3 (by decide)⟩

/-- C2 counterexample: Python's `str.isalnum` is Unicode-aware, so the
sanitizer keeps the letter `é` unchanged, and the output is not contained
in the claimed character set `[A-Za-z0-9 _-]`. -/
theorem C2_counterexample :
    sanitize_identifier 100 "é" = "é"
    ∧ (("é").data.all fun c =>
        c.isAlphanum || c = ' ' || c = '-' || c = '_') = false := by
  decide

/-! ## Tabular record extractor (`extract_papers`, main.py lines 9–105) -/

/-- Scalar values of the loaded data frame.  The claims exercise string,
integer, bytes and missing values; floating-point columns are outside the
model. -/
inductive PVal where
  | vstr (s : String)
  | vint (n : Int)
  | vbytes (b : List Nat)
  | vnone
deriving DecidableEq

/-- Pandas `pd.isna` on one scalar value. -/
def PVal.isNa : PVal → Bool
  | .vnone => true
  | _ => false

/-- Hexadecimal digit character (lowercase), for the bytes repr. -/
def hexDigitCh (n : Nat) : Char :=
  if n < 10 then Char.ofNat (48 + n) else Char.ofNat (87 + n)

/-- One byte of Python's `repr(bytes)` with quote character `q`. -/
def byteEscape (q : Char) (n : Nat) : String :=
  if n = 92 then "\\\\"
  else if n = q.toNat then ("\\") ++ q.toString
  else if n = 9 then "\\t"
  else if n = 10 then "\\n"
  else if n = 13 then "\\r"
  else if 32 ≤ n && n < 127 then (Char.ofNat n).toString
  else ("\\x") ++ (hexDigitCh (n / 16 % 16)).toString ++ (hexDigitCh (n % 16)).toString

/-- Python `str(b)` for a bytes value: single-quoted unless the bytes
contain a single quote but no double quote. -/
def pyBytesRepr (b : List Nat) : String :=
  let q : Char := if b.contains 39 && !(b.contains 34) then '"' else '\''
  ("b") ++ q.toString ++ concatStrs (b.map (byteEscape q)) ++ q.toString

/-- Python `str(v)` for the scalar values of the model. -/
def pvalPyStr : PVal → String
  | .vstr s => s
  | .vint n => toString n
  | .vbytes b => pyBytesRepr b
  | .vnone => ("None")

/-- The loaded tabular dataset: column names and rows (each row listing
its values in column order). -/
structure DataFrame where
  cols : List String
  rows : List (List PVal)
deriving DecidableEq

/-- `paper[col]`: the value of column `c` in `row`. -/
def cellOf (df : DataFrame) (row : List PVal) (c : String) : PVal :=
  row.getD (df.cols.indexOf c) PVal.vnone

/-- The content-column candidate list of main.py line 35. -/
def contentCandidates : List String :=
  [("text"), ("content"), ("markdown"), ("mmd"), ("body")]

/-- The title-column candidate list of main.py line 58. -/
def titleCandidates : List String := [("title"), ("name"), ("paper_title")]

/-- Pandas `df[col].dtype == 'object'` in the value model: a column is
object-typed when it holds any non-integer value (strings, bytes and
missing values force dtype `object`; an all-integer column is `int64`). -/
def colIsObject (df : DataFrame) (c : String) : Bool :=
  df.rows.any (fun r => match cellOf df r c with
    | .vint _ => false
    | _ => true)

/-- The fallback heuristic of main.py lines 44–49: the first value of the
column (empty string when the frame is empty) is a string of more than
100 characters. -/
def firstSampleLong (df : DataFrame) (c : String) : Bool :=
  match cellOf df df.rows.headI c with
  | .vstr s => 100 < s.length
  | _ => false

/-- Content-column inference (main.py lines 34–52): first candidate name
present, else the first object-typed column whose first value is a long
string. -/
def findContentColumn (df : DataFrame) : Option String :=
  match contentCandidates.find? (fun c => df.cols.contains c) with
  | some c => some c
  | none => df.cols.find? (fun c => colIsObject df c && firstSampleLong df c)

/-- Title-column inference (main.py lines 57–61). -/
def findTitleColumn (df : DataFrame) : Option String :=
  titleCandidates.find? (fun c => df.cols.contains c)

/-- A deterministic model of CPython's global `random` module as used by
`extract_papers`: `seedFn` models `random.seed(seed)` (it replaces the
generator state, discarding the previous one) and `sampleFn` models
`random.sample(range(n), k)` together with the contract that call
guarantees — `k` distinct indices below `n` whenever `k ≤ n`.  The
concrete Mersenne-Twister stream is irrelevant to the claims, so the
development is quantified over all such implementations. -/
structure RNGModel (σ : Type) where
  seedFn : Int → σ
  sampleFn : σ → Nat → Nat → List Nat × σ
  sample_mem : ∀ st n k, k ≤ n → ∀ i ∈ (sampleFn st n k).1, i < n
  sample_len : ∀ st n k, k ≤ n → (sampleFn st n k).1.length = k
  sample_nodup : ∀ st n k, k ≤ n → (sampleFn st n k).1.Nodup

/-- The metadata front-matter lines of one row (main.py lines 89–98).
Note the `elif not isinstance(..., bytes)` branch: a string of length
1000 or more fails the first test but passes the second, so it is still
included. -/
def metaKVs (df : DataFrame) (contentCol : String) (row : List PVal) : List String :=
  df.cols.filterMap (fun c =>
    if c = contentCol then none
    else
      let v := cellOf df row c
      if v.isNa then none
      else if (match v with | .vstr s => decide (s.length < 1000) | _ => false) then
        some (c ++ (": ") ++ pvalPyStr v)
      else if (match v with | .vbytes _ => true | _ => false) then none
      else some (c ++ (": ") ++ pvalPyStr v))

/-- The per-row filename (main.py lines 77–83). -/
def rowFilename (df : DataFrame) (titleCol : Option String) (row : List PVal)
    (i : Nat) : String :=
  match titleCol with
  | some tc =>
    fmt04 (i+1) ++ ("_") ++ sanitize_identifier 100 (pvalPyStr (cellOf df row tc)) ++ (".md")
  | none => ("paper_") ++ fmt04 (i+1) ++ (".md")

/-- The per-row writing loop of main.py lines 75–103.  Returns the files
written in order, paired with the exception aborting the run if one was
raised: when a row's content value is not a string, the first
`f.write` call has already put the front matter in the file and the
second raises `TypeError`, stopping the whole job. -/
def writeRows (df : DataFrame) (contentCol : String) (titleCol : Option String) :
    List (List PVal) → Nat → List (String × String) × Option String
  | [], _ => ([], none)
  | row :: rest, i =>
    let fname := rowFilename df titleCol row i
    let meta := pyJoin ("\n") ((("---") :: metaKVs df contentCol row) ++ [("---\n")])
    match cellOf df row contentCol with
    | .vstr body =>
      let r := writeRows df contentCol titleCol rest (i+1)
      ((fname, meta ++ body) :: r.1, r.2)
    | _ => ([(fname, meta)], some ("TypeError: write() argument must be str"))

/-- main.py lines 9–105 as a pure function of the loaded data frame.  The
global `random` module is the explicit generator model `M` with incoming
state `g0`; the code's first action `random.seed(seed)` replaces that
state.  Result: the `(filename, contents)` pairs written, in order, and
the exception aborting the run if one was raised. -/
def extract_papers {σ : Type} (M : RNGModel σ) (g0 : σ) (df : DataFrame)
    (numPapers : Nat) (seed : Int) : List (String × String) × Option String :=
  let g1 := M.seedFn seed
  match findContentColumn df with
  | none => ([], some ("ValueError: Could not identify a column containing paper content"))
  | some ccol =>
    let tcol := findTitleColumn df
    let sel : List (List PVal) :=
      if df.rows.length < numPapers then df.rows
      else (M.sampleFn g1 df.rows.length numPapers).1.map (fun i => df.rows.getD i [])
    writeRows df ccol tcol sel 0

/-! ### Claim C6 -/

/-- C6: determinism of the tabular extraction.  The code reseeds the
generator from the `seed` parameter before sampling, so the incoming
generator state is irrelevant: two runs over the identical source frame
with the same sample size and seed produce identical output file lists
(same filenames, same contents, in the same order). -/
theorem C6_tabular_determinism {σ : Type} (M : RNGModel σ) (g g' : σ)
    (df : DataFrame) (n : Nat) (seed : Int) (h : n < df.rows.length) :
    extract_papers M g df n seed = extract_papers M g' df n seed := rfl

/-- A concrete generator model (state type `Nat`) witnessing that the
`RNGModel` contract is satisfiable. -/
def rngModel0 : RNGModel Nat where
  seedFn := fun _ => 0
  sampleFn := fun _ _ k => (List.range k, 0)
  sample_mem := by
    intro st n k hk i hi
    have := List.mem_range.1 hi
    omega
  sample_len := by intro st n k hk; simp
  sample_nodup := by intro st n k hk; exact List.nodup_range k

/-- A two-row concrete frame for the determinism witness. -/
def dfW : DataFrame := ⟨[("text")], [[PVal.vstr ("A")], [PVal.vstr ("B")]]⟩

/-- C6 witness: the determinism theorem applied to a concrete frame with
two rows, sample size 1 and two different incoming generator states. -/
theorem C6_tabular_determinism_witness :
    1 < dfW.rows.length
    ∧ extract_papers rngModel0 3 dfW 1 42 = extract_papers rngModel0 5 dfW 1 42 :=
  ⟨by decide, C6_tabular_determinism rngModel0 3 5 dfW 1 42 (by decide)⟩

/-! ## Legacy fielded-record parser
(`convert_cisi_to_markdown`, main.py lines 107–192) -/

/-- Match the regex `\.I\s+(\d+)` at the head of the character list:
literal `.I`, one or more whitespace characters (greedy), one or more
digits (greedy).  Returns the captured digit group and the rest of the
input.  `\s` and `\d` are modelled on ASCII, which covers every input in
this development. -/
def matchDotI : List Char → Option (List Char × List Char)
  | '.' :: 'I' :: rest =>
    let sp := rest.takeWhile pyIsSpace
    let r1 := rest.dropWhile pyIsSpace
    if sp.isEmpty then none
    else
      let ds := r1.takeWhile Char.isDigit
      let r2 := r1.dropWhile Char.isDigit
      if ds.isEmpty then none else some (ds, r2)
  | _ => none

/-- Python `re.split(r'\.I\s+(\d+)', content)` (main.py line 125): the
pieces of text between matches, alternating with the captured digit
groups.  `fuel` bounds the left-to-right scan; it is instantiated with
the input length, which suffices because every step consumes at least one
character. -/
def reSplitDotI : Nat → List Char → List Char → List String
  | 0, acc, s => [⟨acc.reverse ++ s⟩]
  | fuel+1, acc, s =>
    match s with
    | [] => [⟨acc.reverse⟩]
    | c :: cs =>
      match matchDotI (c :: cs) with
      | some (ds, rest) => (⟨acc.reverse⟩ : String) :: (⟨ds⟩ : String) ::
          reSplitDotI fuel [] rest
      | none => reSplitDotI fuel (c :: acc) cs

/-- The record splitter applied to the whole file contents. -/
def cisiSplit (s : String) : List String := reSplitDotI s.data.length [] s.data

/-- Consecutive pairs (main.py lines 134–139): `(documents[i],
documents[i+1])`; an unpaired trailing element is discarded. -/
def pairsOf {α : Type} : List α → List (α × α)
  | a :: b :: rest => (a, b) :: pairsOf rest
  | _ => []

/-- Ordered-dictionary update: assigning to an existing key keeps its
position and replaces its value; a new key is appended (Python `dict`
semantics). -/
def updateAssoc (k v : String) : List (String × String) → List (String × String)
  | [] => [(k, v)]
  | kv :: rest => if kv.1 = k then (k, v) :: rest else kv :: updateAssoc k v rest

/-- Python truthiness of the optional string `current_section`: `None`
and the empty string are falsy. -/
def pyTruthy : Option String → Bool
  | none => false
  | some s => !s.isEmpty

/-- Python `line.startswith('.')`. -/
def startsDot (line : String) : Bool :=
  match line.data with
  | c :: _ => c = '.'
  | [] => false

/-- The line scanner of main.py lines 146–160: a line starting with `.`
saves the current section (when its code is truthy) and the trimmed
remainder of that same line becomes the new section code; all other lines
accumulate into the current section's content.  When the current code is
the empty string the accumulated content is neither saved nor cleared,
exactly as in the source. -/
def scanSecLines : List String → List (String × String) → Option String →
    List String → List (String × String)
  | [], secs, cur, buf =>
    if pyTruthy cur then updateAssoc (cur.getD ("")) (pyStrip (pyJoin ("\n") buf)) secs
    else secs
  | line :: rest, secs, cur, buf =>
    if startsDot line then
      let secs' := if pyTruthy cur then
          updateAssoc (cur.getD ("")) (pyStrip (pyJoin ("\n") buf)) secs
        else secs
      let buf' := if pyTruthy cur then [] else buf
      scanSecLines rest secs' (some (pyStrip (line.drop 1))) buf'
    else scanSecLines rest secs cur (buf ++ [line])

/-- The per-record section map (main.py lines 142–160), an ordered
mapping from section code to accumulated text. -/
def parseSections (content : String) : List (String × String) :=
  scanSecLines (splitLines content) [] none []

/-- The record's title (main.py line 163). -/
def cisiTitle (docIdRaw blob : String) : String :=
  ((parseSections (pyStrip blob)).lookup ("T")).getD (("Document ") ++ pyStrip docIdRaw)

/-- The record's body (main.py line 165). -/
def cisiBody (blob : String) : String :=
  ((parseSections (pyStrip blob)).lookup ("W")).getD ("")

/-- The record's filename (main.py lines 168–170). -/
def cisiFilename (docIdRaw blob : String) : String :=
  ("cisi_") ++ zfill 4 (pyStrip docIdRaw) ++ ("_") ++
    sanitize_identifier 100 (cisiTitle docIdRaw blob) ++ (".md")

/-- The record's front-matter lines (main.py lines 173–183): `doc_id`,
`title`, `author`, then the extra sections (codes other than `T`, `A`,
`W`, `X`, in first-encounter order). -/
def cisiFront (docIdRaw blob : String) : List String :=
  let secs := parseSections (pyStrip blob)
  let author := (secs.lookup ("A")).getD ("Unknown")
  let extras := secs.filterMap (fun kv =>
    if [("T"), ("A"), ("W"), ("X")].contains kv.1 then none
    else some (kv.1 ++ (": ") ++ kv.2))
  (("doc_id: ") ++ pyStrip docIdRaw) :: (("title: ") ++ cisiTitle docIdRaw blob) ::
    (("author: ") ++ author) :: extras

/-- The markdown file for one CISI record (main.py lines 138–190): the
front matter between `---` markers, the blank line after the closing
marker (the body is an element of the joined list), and the body. -/
def cisiDocFile (docIdRaw blob : String) : String × String :=
  (cisiFilename docIdRaw blob,
   pyJoin ("\n") ((("---") :: cisiFront docIdRaw blob) ++ [("---\n"), cisiBody blob]))

/-- main.py lines 107–192: the files written by the legacy CISI
conversion, in order. -/
def convert_cisi_to_markdown (input : String) : List (String × String) :=
  (pairsOf ((cisiSplit input).drop 1)).map (fun p => cisiDocFile p.1 p.2)

/-! ### Claim C1 -/

/-- C1 counterexample: on the claim's input the conversion writes exactly
one file, but its front matter reads `title: Document 1` and
`author: Unknown` — the text after the dot on each marker line becomes
the section code (`T Hello`, `A Bob`, `W Body text`), so the line
`title: Hello` demanded by the claim never appears. -/
theorem C1_counterexample :
    convert_cisi_to_markdown (".I 1\n.T Hello\n.A Bob\n.W Body text\n")
      = [(("cisi_0001_Document_1.md"),
          ("---\ndoc_id: 1\ntitle: Document 1\nauthor: Unknown\nT Hello: \nA Bob: \nW Body text: \n---\n\n"))]
    ∧ ¬ List.IsInfix (("title: Hello").data)
        (("---\ndoc_id: 1\ntitle: Document 1\nauthor: Unknown\nT Hello: \nA Bob: \nW Body text: \n---\n\n").data) := by
  decide

/-- C1 (amended): with each section code on its own marker line and the
section text on the following lines — the layout the parser actually
recognises — the round-trip holds: exactly one file, front matter
`doc_id: 1`, `title: Hello`, `author: Bob`, body `Body text`. -/
theorem C1_legacy_roundtrip_amended :
    convert_cisi_to_markdown (".I 1\n.T\nHello\n.A\nBob\n.W\nBody text\n")
      = [(("cisi_0001_Hello.md"),
          ("---\ndoc_id: 1\ntitle: Hello\nauthor: Bob\n---\n\nBody text"))] := by
  decide

/-! ### Claim C3 -/

lemma pyJoin_cons (sep a : String) (l : List String) (h : l ≠ []) :
    pyJoin sep (a :: l) = a ++ sep ++ pyJoin sep l := by
  cases l with
  | nil => exact absurd rfl h
  | cons b t => rfl

lemma concatStrs_append (l1 l2 : List String) :
    concatStrs (l1 ++ l2) = concatStrs l1 ++ concatStrs l2 := by
  induction l1 with
  | nil => simp [concatStrs, String.empty_append]
  | cons a t ih => simp [concatStrs, ih, String.append_assoc]

lemma pyJoin_append_single (kvs : List String) (last : String) :
    pyJoin ("\n") (kvs ++ [last]) =
      concatStrs (kvs.map (fun k => k ++ ("\n"))) ++ last := by
  induction kvs with
  | nil => simp [pyJoin, concatStrs, String.empty_append]
  | cons k rest ih =>
    rw [List.cons_append, pyJoin_cons _ _ _ (by simp), ih]
    simp [concatStrs, String.append_assoc]

lemma envelope_eq (kvs : List String) :
    pyJoin ("\n") ((("---") :: kvs) ++ [("---\n")]) =
      ("---\n") ++ concatStrs (kvs.map (fun k => k ++ ("\n"))) ++ ("---\n") := by
  rw [List.cons_append, pyJoin_cons _ _ _ (by simp), pyJoin_append_single]
  have h34 : ("---" : String) ++ ("\n") = ("---\n") := rfl
  rw [← String.append_assoc, h34]

lemma envelope_blank_eq (mid : List String) (body : String) :
    pyJoin ("\n") ((("---") :: mid) ++ [("---\n"), body]) =
      ("---\n") ++ concatStrs (mid.map (fun k => k ++ ("\n"))) ++ ("---\n\n") ++ body := by
  have h1 : (("---") :: mid) ++ [("---\n"), body]
      = ((("---") :: mid) ++ [("---\n")]) ++ [body] := by simp
  rw [h1, pyJoin_append_single, List.map_append]
  rw [concatStrs_append]
  simp only [List.map_cons, List.map_nil, concatStrs]
  rw [show (("---\n" : String) ++ ("\n") ++ ("")) = ("---\n\n") from rfl]
  rw [show (("---" : String) ++ ("\n")) = ("---\n") from rfl]

lemma writeRows_envelope (df : DataFrame) (ccol : String) (tcol : Option String) :
    ∀ (l : List (List PVal)) (i : Nat) (f : String × String),
      f ∈ (writeRows df ccol tcol l i).1 →
      ∃ (kvs : List String) (body : String), f.2 =
        ("---\n") ++ concatStrs (kvs.map (fun k => k ++ ("\n"))) ++ ("---\n") ++ body := by
  intro l
  induction l with
  | nil =>
    intro i f hf
    simp [writeRows] at hf
  | cons row rest ih =>
    intro i f hf
    unfold writeRows at hf
    rcases hcell : cellOf df row ccol with s | n | b
    case vstr =>
      rw [hcell] at hf
      simp only [List.mem_cons] at hf
      rcases hf with hf | hf
      · refine ⟨metaKVs df ccol row, s, ?_⟩
        rw [hf]
        show pyJoin ("\n") ((("---") :: metaKVs df ccol row) ++ [("---\n")]) ++ s = _
        rw [envelope_eq]
      · exact ih (i+1) f hf
    case vint =>
      rw [hcell] at hf
      simp only [List.mem_cons, List.not_mem_nil, or_false] at hf
      refine ⟨metaKVs df ccol row, (""), ?_⟩
      rw [hf]
      show pyJoin ("\n") ((("---") :: metaKVs df ccol row) ++ [("---\n")]) = _
      rw [envelope_eq, String.append_empty]
    case vbytes =>
      rw [hcell] at hf
      simp only [List.mem_cons, List.not_mem_nil, or_false] at hf
      refine ⟨metaKVs df ccol row, (""), ?_⟩
      rw [hf]
      show pyJoin ("\n") ((("---") :: metaKVs df ccol row) ++ [("---\n")]) = _
      rw [envelope_eq, String.append_empty]
    case vnone =>
      rw [hcell] at hf
      simp only [List.mem_cons, List.not_mem_nil, or_false] at hf
      refine ⟨metaKVs df ccol row, (""), ?_⟩
      rw [hf]
      show pyJoin ("\n") ((("---") :: metaKVs df ccol row) ++ [("---\n")]) = _
      rw [envelope_eq, String.append_empty]

/-- C3 (amended): every file written by the tabular extractor consists of
a `---` line, the `key: value` lines, then a closing `---` line followed
directly by the body (a single newline, no blank line: the body is
appended after the join, outside it); every file written by the legacy
extractor has the claimed form `---` line, `key: value` lines, closing
`---` and a blank line (`---\n\n`), then the body (the body is an element
of the joined list, so the join inserts the extra newline). -/
theorem C3_envelope_amended :
    (∀ (σ : Type) (M : RNGModel σ) (g : σ) (df : DataFrame) (n : Nat) (seed : Int)
        (f : String × String), f ∈ (extract_papers M g df n seed).1 →
        ∃ (kvs : List String) (body : String), f.2 =
          ("---\n") ++ concatStrs (kvs.map (fun k => k ++ ("\n"))) ++ ("---\n") ++ body)
    ∧ (∀ (input : String) (f : String × String),
        f ∈ convert_cisi_to_markdown input →
        ∃ (kvs : List String) (body : String), f.2 =
          ("---\n") ++ concatStrs (kvs.map (fun k => k ++ ("\n"))) ++ ("---\n\n") ++ body) := by
  constructor
  · intro σ M g df n seed f hf
    unfold extract_papers at hf
    rcases hcc : findContentColumn df with _ | ccol
    · rw [hcc] at hf
      simp at hf
    · rw [hcc] at hf
      exact writeRows_envelope df ccol (findTitleColumn df) _ 0 f hf
  · intro input f hf
    unfold convert_cisi_to_markdown at hf
    rcases List.mem_map.1 hf with ⟨p, _, rfl⟩
    exact ⟨cisiFront p.1 p.2, cisiBody p.2, envelope_blank_eq _ _⟩

/-- A one-column, one-row concrete frame used by the C3 theorems. -/
def df3 : DataFrame := ⟨[("text")], [[PVal.vstr ("B")]]⟩

/-- C3 witness: the amended envelope theorem applied to the concrete
tabular file written for `df3` and to the concrete legacy file written
for a two-record-free CISI input. -/
theorem C3_envelope_witness :
    (∃ (kvs : List String) (body : String), ("---\n---\nB") =
      ("---\n") ++ concatStrs (kvs.map (fun k => k ++ ("\n"))) ++ ("---\n") ++ body)
    ∧ (∃ (kvs : List String) (body : String), ("---\ndoc_id: 1\ntitle: Hello\nauthor: Bob\n---\n\nBody text") =
      ("---\n") ++ concatStrs (kvs.map (fun k => k ++ ("\n"))) ++ ("---\n\n") ++ body) :=
  ⟨C3_envelope_amended.1 Nat rngModel0 0 df3 1 42 (("paper_0001.md"), ("---\n---\nB"))
      (by decide),
   C3_envelope_amended.2 (".I 1\n.T\nHello\n.A\nBob\n.W\nBody text\n")
      (("cisi_0001_Hello.md"), ("---\ndoc_id: 1\ntitle: Hello\nauthor: Bob\n---\n\nBody text"))
      (by decide)⟩

/-- C3 counterexample: the tabular extractor writes the file
`---\n---\nB` for a one-column frame — the byte sequence `---\n\n`
required by the claim between front matter and body does not occur in it,
because `extract_papers` appends the body right after the `---\n`
produced by the join. -/
theorem C3_counterexample :
    (extract_papers rngModel0 0 df3 1 42).1 = [(("paper_0001.md"), ("---\n---\nB"))]
    ∧ ¬ List.IsInfix (("---\n\n").data) (("---\n---\nB").data) := by
  decide

/-! ### Claim C4 -/

/-- A 1000-character string, at the threshold of main.py line 94. -/
def longA : String := ⟨List.replicate 1000 'a'⟩

/-- The concrete frame exhibiting the metadata filter: a content column,
a 1000-character string column, a bytes column and an integer column. -/
def df4 : DataFrame :=
  ⟨[("text"), ("note"), ("blob"), ("n")],
   [[PVal.vstr ("body"), PVal.vstr longA, PVal.vbytes [0], PVal.vint 7]]⟩

/-- C4: evaluating the extractor at the failing input.  The comment at
main.py line 93 announces that very long data is skipped, but a string of
length 1000 fails only the first test (`isinstance(str) and len < 1000`)
and then satisfies the `elif not isinstance(..., (bytes, bytearray))`
branch, so the 1000-character value appears in the front matter.  Bytes
values are dropped and integer values are included, as claimed. -/
theorem C4_long_string_included :
    extract_papers rngModel0 0 df4 1 42 =
      ([(("paper_0001.md"),
         ("---\nnote: ") ++ longA ++ ("\nn: 7\n---\nbody"))], none) := by
  rfl

/-! ## Character sanitizers of the remote extractor (api.py) -/

/-- api.py line 324 (and line 277 for titles): characters with code
point at least 128 are replaced with an underscore, one for one. -/
def sanitizeWikirContent (s : String) : String :=
  ⟨s.data.map (fun c => if c.toNat < 128 then c else '_')⟩

/-- api.py line 800 (and lines 775, 784): characters with code point at
least 128 are replaced with a space, one for one. -/
def sanitizeWikiAscii (s : String) : String :=
  ⟨s.data.map (fun c => if c.toNat < 128 then c else ' ')⟩

/-- api.py line 802: control characters other than newline, carriage
return and tab are replaced with a space, one for one. -/
def sanitizeWikiCtrl (s : String) : String :=
  ⟨s.data.map (fun c =>
    if 32 ≤ c.toNat ∨ c = '\n' ∨ c = '\r' ∨ c = '\t' then c else ' ')⟩

/-- The chunk sanitization of `download_wiki_article_to_pdf`
(api.py lines 798–803): the 7-bit restriction followed by the
control-character normalization. -/
def sanitizeWikiChunk (s : String) : String := sanitizeWikiCtrl (sanitizeWikiAscii s)

/-! ### Claim C5 -/

lemma zip_map_pointwise (f : Char → Char) (l : List Char) :
    ∀ p ∈ (l.map f).zip l, p.1 = f p.2 := by
  induction l with
  | nil => simp
  | cons c t ih =>
    intro p hp
    simp only [List.map_cons, List.zip_cons_cons, List.mem_cons] at hp
    rcases hp with rfl | hp
    · rfl
    · exact ih p hp

/-- C5 counterexample: in the fixed-layout extraction path
(`extract_wikir_to_pdf`, api.py line 324) a character with code point at
least 128 is replaced with an underscore, not with the single space the
claim demands. -/
theorem C5_counterexample :
    sanitizeWikirContent ("é") = ("_") ∧ sanitizeWikirContent ("é") ≠ (" ") := by
  decide

/-- C5 (amended): both 7-bit sanitizations replace each character with
code point at least 128 by exactly one character — an underscore in the
remote corpus extractor, a space in the Wikipedia article path — and are
length-preserving; every output character is 7-bit, and the chunk
sanitizer additionally leaves no control characters other than newline,
carriage return and tab. -/
theorem C5_sanitizer_amended (s : String) :
    (sanitizeWikirContent s).length = s.length
    ∧ (sanitizeWikiChunk s).length = s.length
    ∧ (∀ c ∈ (sanitizeWikirContent s).data, c.toNat < 128)
    ∧ (∀ c ∈ (sanitizeWikiChunk s).data,
        c.toNat < 128 ∧ (32 ≤ c.toNat ∨ c = '\n' ∨ c = '\r' ∨ c = '\t'))
    ∧ (∀ p ∈ (sanitizeWikirContent s).data.zip s.data,
        (if p.2.toNat < 128 then p.1 = p.2 else p.1 = '_'))
    ∧ (∀ p ∈ (sanitizeWikiAscii s).data.zip s.data,
        (if p.2.toNat < 128 then p.1 = p.2 else p.1 = ' ')) := by
  refine ⟨?_, ?_, ?_, ?_, ?_, ?_⟩
  · show (s.data.map _).length = s.length
    rw [List.length_map]
    rfl
  · show ((s.data.map _).map _).length = s.length
    rw [List.length_map, List.length_map]
    rfl
  · intro c hc
    rcases List.mem_map.1 hc with ⟨c0, _, rfl⟩
    by_cases h : c0.toNat < 128
    · simp [h]
    · simp [h]
  · intro c hc
    simp only [sanitizeWikiChunk, sanitizeWikiCtrl, sanitizeWikiAscii,
      List.map_map] at hc
    rcases List.mem_map.1 hc with ⟨c0, _, rfl⟩
    simp only [Function.comp_apply]
    by_cases h : c0.toNat < 128
    · rw [if_pos h]
      by_cases h2 : 32 ≤ c0.toNat ∨ c0 = '\n' ∨ c0 = '\r' ∨ c0 = '\t'
      · rw [if_pos h2]
        exact ⟨h, h2⟩
      · rw [if_neg h2]
        exact ⟨by decide, Or.inl (by decide)⟩
    · rw [if_neg h]
      rw [if_pos (Or.inl (by decide : (32 : Nat) ≤ Char.toNat ' '))]
      exact ⟨by decide, Or.inl (by decide)⟩
  · intro p hp
    have h1 := zip_map_pointwise (fun c => if c.toNat < 128 then c else '_') s.data p hp
    by_cases h : p.2.toNat < 128
    · simp only [h, if_true] at h1 ⊢
      exact h1
    · simp only [h, if_false] at h1 ⊢
      exact h1
  · intro p hp
    have h1 := zip_map_pointwise (fun c => if c.toNat < 128 then c else ' ') s.data p hp
    by_cases h : p.2.toNat < 128
    · simp only [h, if_true] at h1 ⊢
      exact h1
    · simp only [h, if_false] at h1 ⊢
      exact h1

/-! ## Remote corpus extractor (`extract_wikir_to_pdf`, api.py lines 193–383)

One record of the remote document source is modelled by the attributes
the summary-level claims depend on: whether `doc_id` is present, and the
three catch sites of the per-document loop.  `convFails` models an
exception raised while building the document (caught by the outer
`except` at api.py line 344, which `continue`s), `renderFails` one raised
by the renderer's text call (line 331, after which the code falls back to
a placeholder and carries on), `saveFails` one raised when saving the
output file (line 341).  The renderer itself (FPDF) is an external black
box per the specification, so the bytes it emits are not modelled; the
filesystem is the list of filenames present in the output directory. -/

structure WDoc where
  docId : Option String
  convFails : Bool
  renderFails : Bool
  saveFails : Bool
deriving DecidableEq

/-- The output filename of a document (api.py line 248). -/
def wfilename (id : String) : String := ("wikir_") ++ id ++ (".pdf")

/-- The optional output filename of a document. -/
def flnm (d : WDoc) : Option String := d.docId.map wfilename

/-- The loop state of api.py lines 227–351: the enumerate index, the
`doc_count` and `files_created` accumulators, the error list, and the
files existing in the output directory. -/
structure WState where
  i : Nat
  docCount : Nat
  files : List String
  errors : List String
  fs : List String
deriving DecidableEq

/-- api.py lines 243–245: missing `doc_id` records an error and
`continue`s. -/
def wNoId (st : WState) : WState :=
  { st with
    errors := (st.errors ++ [("Document at index ") ++ toString st.i ++ (" has no doc_id")]),
    i := st.i + 1 }

/-- api.py lines 247–254: the file already exists — count as created,
`continue` without regenerating. -/
def wSkip (fn : String) (st : WState) : WState :=
  { st with files := (st.files ++ [fn]), docCount := st.docCount + 1, i := st.i + 1 }

/-- api.py lines 344–346: an exception while converting the document is
recorded and the loop `continue`s. -/
def wConvFail (st : WState) : WState :=
  { st with
    errors := (st.errors ++ [("Error processing doc at index ") ++ toString st.i]),
    i := st.i + 1 }

/-- api.py lines 331–334: the renderer's text error, recorded before the
placeholder fallback. -/
def wRenderErrs (d : WDoc) (id : String) (st : WState) : List String :=
  if d.renderFails then st.errors ++ [("Error adding text for doc ") ++ id]
  else st.errors

/-- api.py lines 341–342: saving the output file raised — record the
error, do not count the document. -/
def wSaveFail (d : WDoc) (id : String) (st : WState) : WState :=
  { st with
    errors := (wRenderErrs d id st ++ [("Error saving PDF for doc ") ++ id]),
    i := st.i + 1 }

/-- api.py lines 336–340: the document's file is written and counted. -/
def wCreate (d : WDoc) (id : String) (st : WState) : WState :=
  { st with
    errors := wRenderErrs d id st,
    files := (st.files ++ [wfilename id]),
    docCount := st.docCount + 1,
    fs := (st.fs ++ [wfilename id]),
    i := st.i + 1 }

/-- One iteration of the document loop (api.py lines 238–346).  The
boolean is true when the iteration reaches the bottom of the loop body
(so the `doc_count >= limit` check of line 349 runs) and false on the
paths that `continue` past it. -/
def wstep (d : WDoc) (st : WState) : WState × Bool :=
  match d.docId with
  | none => (wNoId st, false)
  | some id =>
    if wfilename id ∈ st.fs then (wSkip (wfilename id) st, false)
    else if d.convFails then (wConvFail st, false)
    else if d.saveFails then (wSaveFail d id st, true)
    else (wCreate d id st, true)

/-- The document loop (api.py lines 232–351): stop before a document when
the enumerate index reaches the limit (line 234), stop after a normal
iteration when `doc_count` reaches it (line 349). -/
def wloop (limit : Nat) : List WDoc → WState → WState
  | [], st => st
  | d :: ds, st =>
    if limit ≤ st.i then st
    else
      let r := wstep d st
      if r.2 = true ∧ limit ≤ r.1.docCount then r.1 else wloop limit ds r.1

/-- A whole run of the document loop from a fresh state over the existing
files `fs0`. -/
def wextract (docs : List WDoc) (limit : Nat) (fs0 : List String) : WState :=
  wloop limit docs ⟨0, 0, [], [], fs0⟩

/-- The summary dictionary built at api.py lines 363–373. -/
structure WSummary where
  status : String
  message : String
  docsExtracted : Nat
  filesCreated : Nat
  files : List String
  totalFiles : Nat
  errorsCount : Nat
  errors : List String
deriving DecidableEq

/-- api.py lines 363–373. -/
def wsummary (limit : Nat) (st : WState) : WSummary :=
  { status := if 0 < st.docCount then ("success") else ("warning"),
    message := ("Extracted ") ++ toString st.docCount ++
      (" documents (limited to ") ++ toString limit ++ (")"),
    docsExtracted := st.docCount,
    filesCreated := st.files.length,
    files := st.files.take 100,
    totalFiles := st.files.length,
    errorsCount := st.errors.length,
    errors := st.errors.take 20 }

/-- A document every branch of the loop treats as a success. -/
def WGood (d : WDoc) : Prop :=
  d.docId.isSome = true ∧ d.convFails = false ∧ d.renderFails = false
    ∧ d.saveFails = false

instance (d : WDoc) : Decidable (WGood d) :=
  inferInstanceAs (Decidable (d.docId.isSome = true ∧ d.convFails = false
    ∧ d.renderFails = false ∧ d.saveFails = false))

/-! ### Claim C8 -/

lemma wstep_good (d : WDoc) (st : WState) (h : WGood d) :
    ∃ id, d.docId = some id
      ∧ (wstep d st).1.docCount = st.docCount + 1
      ∧ (wstep d st).1.errors = st.errors
      ∧ (wstep d st).1.i = st.i + 1
      ∧ (wstep d st).1.files = st.files ++ [wfilename id] := by
  obtain ⟨h1, h2, h3, h4⟩ := h
  rcases hid : d.docId with _ | id
  · rw [hid] at h1
    simp at h1
  · refine ⟨id, rfl, ?_⟩
    simp only [wstep, hid]
    by_cases hfs : wfilename id ∈ st.fs
    · rw [if_pos hfs]
      simp [wSkip]
    · rw [if_neg hfs, h2, h4]
      simp [wCreate, wRenderErrs, h3]

lemma wloop_goods (lim : Nat) :
    ∀ (ds : List WDoc) (st : WState),
      (∀ d ∈ ds, WGood d) →
      st.i + ds.length ≤ lim →
      st.docCount + ds.length ≤ lim →
      (wloop lim ds st).docCount = st.docCount + ds.length
      ∧ (wloop lim ds st).errors = st.errors
      ∧ (wloop lim ds st).i = st.i + ds.length
      ∧ (wloop lim ds st).files.length = st.files.length + ds.length := by
  intro ds
  induction ds with
  | nil =>
    intro st _ _ _
    simp [wloop]
  | cons d ds' ih =>
    intro st hg hi hc
    have hgd := hg d (List.mem_cons_self d ds')
    obtain ⟨id, hid, hdc, herr, hii, hfl⟩ := wstep_good d st hgd
    have hlen : (d :: ds').length = ds'.length + 1 := by simp
    unfold wloop
    rw [if_neg (by rw [hlen] at hi; omega : ¬ lim ≤ st.i)]
    by_cases hbr : ((wstep d st).2 = true ∧ lim ≤ (wstep d st).1.docCount)
    · rw [if_pos hbr]
      have h0 : ds'.length = 0 := by
        rw [hlen] at hc
        omega
      refine ⟨?_, herr, ?_, ?_⟩
      · rw [hdc, hlen, h0]
      · rw [hii, hlen, h0]
      · rw [hfl, hlen, h0]
        simp only [List.length_append, List.length_cons, List.length_nil]
    · rw [if_neg hbr]
      have hg' : ∀ x ∈ ds', WGood x := fun x hx => hg x (List.mem_cons_of_mem d hx)
      have hi' : (wstep d st).1.i + ds'.length ≤ lim := by
        rw [hii]
        rw [hlen] at hi
        omega
      have hc' : (wstep d st).1.docCount + ds'.length ≤ lim := by
        rw [hdc]
        rw [hlen] at hc
        omega
      obtain ⟨e1, e2, e3, e4⟩ := ih (wstep d st).1 hg' hi' hc'
      refine ⟨?_, ?_, ?_, ?_⟩
      · rw [e1, hdc, hlen]
        omega
      · rw [e2, herr]
      · rw [e3, hii, hlen]
        omega
      · rw [e4, hfl, hlen]
        simp only [List.length_append, List.length_cons, List.length_nil]
        omega

lemma wstep_fs (d : WDoc) (st : WState) :
    (wstep d st).1.fs = st.fs
    ∨ ∃ id, d.docId = some id ∧ (wstep d st).1.fs = st.fs ++ [wfilename id] := by
  rcases hid : d.docId with _ | id
  · simp only [wstep, hid]
    left
    rfl
  · simp only [wstep, hid]
    by_cases h1 : wfilename id ∈ st.fs
    · rw [if_pos h1]
      left
      rfl
    · rw [if_neg h1]
      by_cases h2 : d.convFails = true
      · simp only [h2, if_true]
        left
        rfl
      · simp only [h2, Bool.false_eq_true, if_false]
        by_cases h3 : d.saveFails = true
        · simp only [h3, if_true]
          left
          rfl
        · simp only [h3, Bool.false_eq_true, if_false]
          right
          exact ⟨id, rfl, rfl⟩

lemma wloop_fs_spec (lim : Nat) :
    ∀ (ds : List WDoc) (st : WState),
      ∃ l, (wloop lim ds st).fs = st.fs ++ l
        ∧ ∀ x ∈ l, ∃ d ∈ ds, flnm d = some x := by
  intro ds
  induction ds with
  | nil =>
    intro st
    exact ⟨[], by simp [wloop], by simp⟩
  | cons d ds' ih =>
    intro st
    unfold wloop
    by_cases hi : lim ≤ st.i
    · rw [if_pos hi]
      exact ⟨[], by simp, by simp⟩
    rw [if_neg hi]
    have hstep : (wstep d st).1.fs = st.fs
        ∨ ∃ id, d.docId = some id ∧ (wstep d st).1.fs = st.fs ++ [wfilename id] :=
      wstep_fs d st
    by_cases hbr : ((wstep d st).2 = true ∧ lim ≤ (wstep d st).1.docCount)
    · rw [if_pos hbr]
      rcases hstep with h | ⟨id, hid, h⟩
      · exact ⟨[], by rw [h]; simp, by simp⟩
      · refine ⟨[wfilename id], by rw [h], ?_⟩
        intro x hx
        rcases List.mem_singleton.1 hx with rfl
        exact ⟨d, List.mem_cons_self d ds', by simp [flnm, hid]⟩
    · rw [if_neg hbr]
      obtain ⟨l, hl, hmem⟩ := ih (wstep d st).1
      rcases hstep with h | ⟨id, hid, h⟩
      · refine ⟨l, by rw [hl, h], ?_⟩
        intro x hx
        obtain ⟨d', hd', he⟩ := hmem x hx
        exact ⟨d', List.mem_cons_of_mem d hd', he⟩
      · refine ⟨wfilename id :: l, ?_, ?_⟩
        · rw [hl, h, List.append_assoc]
          rfl
        · intro x hx
          rcases List.mem_cons.1 hx with rfl | hx
          · exact ⟨d, List.mem_cons_self d ds', by simp [flnm, hid]⟩
          · obtain ⟨d', hd', he⟩ := hmem x hx
            exact ⟨d', List.mem_cons_of_mem d hd', he⟩

lemma wstep_i (d : WDoc) (st : WState) : (wstep d st).1.i = st.i + 1 := by
  rcases hid : d.docId with _ | id
  · simp only [wstep, hid]
    rfl
  · simp only [wstep, hid]
    by_cases h1 : wfilename id ∈ st.fs
    · rw [if_pos h1]
      rfl
    · rw [if_neg h1]
      by_cases h2 : d.convFails = true
      · simp [h2, wConvFail]
      · simp only [h2, Bool.false_eq_true, if_false]
        by_cases h3 : d.saveFails = true
        · simp [h3, wSaveFail]
        · simp [h3, wCreate]

lemma wstep_dc_le (d : WDoc) (st : WState) :
    (wstep d st).1.docCount ≤ st.docCount + 1 := by
  rcases hid : d.docId with _ | id
  · simp only [wstep, hid]
    exact Nat.le_succ _
  · simp only [wstep, hid]
    by_cases h1 : wfilename id ∈ st.fs
    · rw [if_pos h1]
      exact Nat.le_refl _
    · rw [if_neg h1]
      by_cases h2 : d.convFails = true
      · simp [h2, wConvFail]
      · simp only [h2, Bool.false_eq_true, if_false]
        by_cases h3 : d.saveFails = true
        · simp [h3, wSaveFail]
        · simp [h3, wCreate]

lemma wloop_cons (lim : Nat) (d : WDoc) (ds : List WDoc) (st : WState) :
    wloop lim (d :: ds) st =
      if lim ≤ st.i then st
      else if ((wstep d st).2 = true ∧ lim ≤ (wstep d st).1.docCount) then (wstep d st).1
      else wloop lim ds (wstep d st).1 := rfl

lemma wloop_append (lim : Nat) :
    ∀ (l1 l2 : List WDoc) (st : WState),
      st.i + l1.length ≤ lim →
      st.docCount + l1.length < lim →
      wloop lim (l1 ++ l2) st = wloop lim l2 (wloop lim l1 st) := by
  intro l1
  induction l1 with
  | nil =>
    intro l2 st _ _
    rfl
  | cons d t ih =>
    intro l2 st hi hc
    have hlen : (d :: t).length = t.length + 1 := by simp
    rw [hlen] at hi hc
    have hnobr : ¬ ((wstep d st).2 = true ∧ lim ≤ (wstep d st).1.docCount) := by
      intro hbr
      have := wstep_dc_le d st
      omega
    have hi' : (wstep d st).1.i + t.length ≤ lim := by
      rw [wstep_i]
      omega
    have hc' : (wstep d st).1.docCount + t.length < lim := by
      have := wstep_dc_le d st
      omega
    have e1 : wloop lim (d :: (t ++ l2)) st = wloop lim (t ++ l2) (wstep d st).1 := by
      rw [wloop_cons, if_neg (by omega : ¬ lim ≤ st.i), if_neg hnobr]
    have e2 : wloop lim (d :: t) st = wloop lim t (wstep d st).1 := by
      rw [wloop_cons, if_neg (by omega : ¬ lim ≤ st.i), if_neg hnobr]
    rw [List.cons_append, e1, e2]
    exact ih l2 (wstep d st).1 hi' hc'

/-- C8: partial-failure containment.  A batch of `pre` then one document
whose conversion throws, then `post`, over a fresh output directory and a
limit that covers the whole batch: every good document is counted, the
failing one contributes exactly one error and processing continues, and
the summary's status is `success` (never a failure status) as soon as one
document succeeded. -/
theorem C8_partial_failure_containment (pre post : List WDoc) (bad : WDoc)
    (lim : Nat) (idb : String)
    (hpre : ∀ d ∈ pre, WGood d) (hpost : ∀ d ∈ post, WGood d)
    (hbid : bad.docId = some idb) (hbc : bad.convFails = true)
    (hfn : (wfilename idb) ∉ pre.filterMap flnm)
    (hlim : pre.length + post.length + 1 ≤ lim)
    (hpos : 0 < pre.length + post.length) :
    (wextract (pre ++ bad :: post) lim []).docCount = pre.length + post.length
    ∧ (wextract (pre ++ bad :: post) lim []).errors.length = 1
    ∧ (wsummary lim (wextract (pre ++ bad :: post) lim [])).status = ("success")
    ∧ (wsummary lim (wextract (pre ++ bad :: post) lim [])).errorsCount = 1 := by
  have hppos : pre.length < lim := by omega
  obtain ⟨gdc, gerr, gi, gfl⟩ :=
    wloop_goods lim pre ⟨0, 0, [], [], []⟩ hpre (by dsimp only; omega) (by dsimp only; omega)
  have gdc' : (wloop lim pre ⟨0, 0, [], [], []⟩).docCount = pre.length := by
    rw [gdc]
    show 0 + pre.length = pre.length
    omega
  have gerr' : (wloop lim pre ⟨0, 0, [], [], []⟩).errors = [] := gerr
  have gi' : (wloop lim pre ⟨0, 0, [], [], []⟩).i = pre.length := by
    rw [gi]
    show 0 + pre.length = pre.length
    omega
  obtain ⟨l, hfs_eq, hl⟩ := wloop_fs_spec lim pre ⟨0, 0, [], [], []⟩
  have hmem : wfilename idb ∉ (wloop lim pre ⟨0, 0, [], [], []⟩).fs := by
    intro hmem'
    rw [hfs_eq] at hmem'
    have hmem'' : wfilename idb ∈ l := by
      simpa using hmem'
    obtain ⟨d, hd, he⟩ := hl _ hmem''
    exact hfn (List.mem_filterMap.2 ⟨d, hd, he⟩)
  have hstep : wstep bad (wloop lim pre ⟨0, 0, [], [], []⟩) =
      (wConvFail (wloop lim pre ⟨0, 0, [], [], []⟩), false) := by
    simp only [wstep, hbid]
    rw [if_neg hmem, hbc]
    simp
  have hmain : wextract (pre ++ bad :: post) lim [] =
      wloop lim post (wConvFail (wloop lim pre ⟨0, 0, [], [], []⟩)) := by
    unfold wextract
    rw [wloop_append lim pre (bad :: post) _ (by dsimp only; omega) (by dsimp only; omega)]
    rw [wloop_cons, if_neg (by rw [gi']; omega), hstep, if_neg (by simp)]
  obtain ⟨pdc, perr, ppi, pfl⟩ := wloop_goods lim post
      (wConvFail (wloop lim pre ⟨0, 0, [], [], []⟩)) hpost
      (by simp only [wConvFail]; rw [gi']; omega)
      (by simp only [wConvFail]; rw [gdc']; omega)
  have hdcfinal : (wextract (pre ++ bad :: post) lim []).docCount
      = pre.length + post.length := by
    rw [hmain, pdc]
    simp only [wConvFail]
    rw [gdc']
  have herrfinal : (wextract (pre ++ bad :: post) lim []).errors.length = 1 := by
    rw [hmain, perr]
    simp only [wConvFail]
    rw [gerr']
    simp
  refine ⟨hdcfinal, herrfinal, ?_, ?_⟩
  · simp only [wsummary]
    rw [if_pos (by rw [hdcfinal]; omega)]
  · simp only [wsummary]
    exact herrfinal

/-- A remote document every branch treats as a success. -/
def wgood (id : String) : WDoc := ⟨some id, false, false, false⟩

/-- A remote document whose conversion throws. -/
def wbadDoc : WDoc := ⟨some ("b"), true, false, false⟩

/-- Nine good documents with distinct identifiers. -/
def pre9 : List WDoc :=
  [wgood ("1"), wgood ("2"), wgood ("3"), wgood ("4"), wgood ("5"),
   wgood ("6"), wgood ("7"), wgood ("8"), wgood ("9")]

/-- C8 witness: the containment theorem applied to a batch of ten
documents of which one throws — nine successes, one recorded error,
status `success`. -/
theorem C8_partial_failure_containment_witness :
    (wextract (pre9 ++ wbadDoc :: []) 100 []).docCount = 9
    ∧ (wextract (pre9 ++ wbadDoc :: []) 100 []).errors.length = 1
    ∧ (wsummary 100 (wextract (pre9 ++ wbadDoc :: []) 100 [])).status = ("success")
    ∧ (wsummary 100 (wextract (pre9 ++ wbadDoc :: []) 100 [])).errorsCount = 1 :=
  C8_partial_failure_containment pre9 [] wbadDoc 100 ("b")
    (by decide) (by decide) rfl rfl (by decide) (by decide) (by decide)

/-! ### Claim C9 -/

lemma wloop_stop (lim : Nat) (ds : List WDoc) (st : WState) (h : lim ≤ st.i) :
    wloop lim ds st = st := by
  cases ds with
  | nil => rfl
  | cons d t => rw [wloop_cons, if_pos h]

lemma wloop_fs_mono (lim : Nat) (ds : List WDoc) (st : WState) {x : String}
    (h : x ∈ st.fs) : x ∈ (wloop lim ds st).fs := by
  obtain ⟨l, hl, _⟩ := wloop_fs_spec lim ds st
  rw [hl]
  exact List.mem_append_left _ h

lemma wloop_fs_new (lim : Nat) (ds : List WDoc) (st : WState) {x : String}
    (hx : x ∈ (wloop lim ds st).fs) (hnot : x ∉ st.fs) :
    ∃ d ∈ ds, flnm d = some x := by
  obtain ⟨l, hl, hmem⟩ := wloop_fs_spec lim ds st
  rw [hl] at hx
  rcases List.mem_append.1 hx with h | h
  · exact absurd h hnot
  · exact hmem x h

lemma wRenderErrs_length (d : WDoc) (id : String) (st : WState) :
    (wRenderErrs d id st).length
      = st.errors.length + (if d.renderFails = true then 1 else 0) := by
  unfold wRenderErrs
  by_cases h : d.renderFails = true
  · simp [h]
  · simp [h]

lemma wloop_replay (lim : Nat) :
    ∀ (ds : List WDoc) (s1 s2 : WState),
      (ds.filterMap flnm).Nodup →
      s1.docCount ≤ s1.i →
      s2.i = s1.i → s2.docCount = s1.docCount → s2.files = s1.files →
      s2.errors.length ≤ s1.errors.length →
      s2.fs = (wloop lim ds s1).fs →
      (wloop lim ds s2).files = (wloop lim ds s1).files
      ∧ (wloop lim ds s2).docCount = (wloop lim ds s1).docCount
      ∧ (wloop lim ds s2).fs = (wloop lim ds s1).fs
      ∧ (wloop lim ds s2).errors.length ≤ (wloop lim ds s1).errors.length := by
  intro ds
  induction ds with
  | nil =>
    intro s1 s2 _ _ hi hdc hfl herr hfs
    exact ⟨hfl, hdc, hfs, herr⟩
  | cons d ds' ih =>
    intro s1 s2 hnd hdi hi hdc hfl herr hfs
    by_cases hib : lim ≤ s1.i
    · have hib2 : lim ≤ s2.i := by rw [hi]; exact hib
      rw [wloop_stop lim _ s1 hib] at hfs ⊢
      rw [wloop_stop lim _ s2 hib2]
      exact ⟨hfl, hdc, hfs, herr⟩
    have hib2 : ¬ lim ≤ s2.i := by rw [hi]; exact hib
    rcases hid : d.docId with _ | id
    · -- no doc_id: error and continue, in both runs
      have hnd' : (ds'.filterMap flnm).Nodup := by
        have hfc : (d :: ds').filterMap flnm = ds'.filterMap flnm := by
          simp [List.filterMap_cons, flnm, hid]
        rwa [hfc] at hnd
      have hstep1 : wstep d s1 = (wNoId s1, false) := by
        simp only [wstep, hid]
      have hstep2 : wstep d s2 = (wNoId s2, false) := by
        simp only [wstep, hid]
      have e1 : wloop lim (d :: ds') s1 = wloop lim ds' (wNoId s1) := by
        rw [wloop_cons, if_neg hib, hstep1, if_neg (by simp)]
      have e2 : wloop lim (d :: ds') s2 = wloop lim ds' (wNoId s2) := by
        rw [wloop_cons, if_neg hib2, hstep2, if_neg (by simp)]
      rw [e1] at hfs ⊢
      rw [e2]
      refine ih (wNoId s1) (wNoId s2) hnd' ?_ ?_ ?_ ?_ ?_ hfs
      · simp only [wNoId]
        omega
      · simp [wNoId, hi]
      · simp [wNoId, hdc]
      · simp [wNoId, hfl]
      · simp only [wNoId, List.length_append, List.length_cons, List.length_nil]
        omega
    -- document with an id
    have hfc : (d :: ds').filterMap flnm = wfilename id :: ds'.filterMap flnm := by
      simp [List.filterMap_cons, flnm, hid]
    have hnd' : (ds'.filterMap flnm).Nodup := by
      rw [hfc] at hnd
      exact hnd.of_cons
    have hfn' : wfilename id ∉ ds'.filterMap flnm := by
      rw [hfc] at hnd
      exact (List.nodup_cons.1 hnd).1
    by_cases hm1 : wfilename id ∈ s1.fs
    · -- skip in run 1, hence also in run 2
      have hstep1 : wstep d s1 = (wSkip (wfilename id) s1, false) := by
        simp only [wstep, hid]
        rw [if_pos hm1]
      have e1 : wloop lim (d :: ds') s1 = wloop lim ds' (wSkip (wfilename id) s1) := by
        rw [wloop_cons, if_neg hib, hstep1, if_neg (by simp)]
      have hm2 : wfilename id ∈ s2.fs := by
        rw [hfs, e1]
        exact wloop_fs_mono lim ds' _ hm1
      have hstep2 : wstep d s2 = (wSkip (wfilename id) s2, false) := by
        simp only [wstep, hid]
        rw [if_pos hm2]
      have e2 : wloop lim (d :: ds') s2 = wloop lim ds' (wSkip (wfilename id) s2) := by
        rw [wloop_cons, if_neg hib2, hstep2, if_neg (by simp)]
      rw [e1] at hfs ⊢
      rw [e2]
      refine ih _ _ hnd' ?_ ?_ ?_ ?_ ?_ hfs
      · simp only [wSkip]
        omega
      · simp [wSkip, hi]
      · simp [wSkip, hdc]
      · simp [wSkip, hfl]
      · simp only [wSkip]
        exact herr
    by_cases hcv : d.convFails = true
    · -- conversion throws, in both runs
      have hstep1 : wstep d s1 = (wConvFail s1, false) := by
        simp only [wstep, hid]
        rw [if_neg hm1, if_pos hcv]
      have e1 : wloop lim (d :: ds') s1 = wloop lim ds' (wConvFail s1) := by
        rw [wloop_cons, if_neg hib, hstep1, if_neg (by simp)]
      have hm2 : wfilename id ∉ s2.fs := by
        rw [hfs, e1]
        intro hx
        obtain ⟨d', hd', he⟩ := wloop_fs_new lim ds' (wConvFail s1) hx hm1
        exact hfn' (List.mem_filterMap.2 ⟨d', hd', he⟩)
      have hstep2 : wstep d s2 = (wConvFail s2, false) := by
        simp only [wstep, hid]
        rw [if_neg hm2, if_pos hcv]
      have e2 : wloop lim (d :: ds') s2 = wloop lim ds' (wConvFail s2) := by
        rw [wloop_cons, if_neg hib2, hstep2, if_neg (by simp)]
      rw [e1] at hfs ⊢
      rw [e2]
      refine ih _ _ hnd' ?_ ?_ ?_ ?_ ?_ hfs
      · simp only [wConvFail]
        omega
      · simp [wConvFail, hi]
      · simp [wConvFail, hdc]
      · simp [wConvFail, hfl]
      · simp only [wConvFail, List.length_append, List.length_cons, List.length_nil]
        omega
    by_cases hsv : d.saveFails = true
    · -- saving throws, in both runs: fall to the doc_count check
      have hstep1 : wstep d s1 = (wSaveFail d id s1, true) := by
        simp only [wstep, hid]
        rw [if_neg hm1, if_neg hcv, if_pos hsv]
      by_cases hbrk : lim ≤ s1.docCount
      · have e1 : wloop lim (d :: ds') s1 = wSaveFail d id s1 := by
          rw [wloop_cons, if_neg hib, hstep1, if_pos ⟨rfl, hbrk⟩]
        have hm2 : wfilename id ∉ s2.fs := by
          rw [hfs, e1]
          exact hm1
        have hstep2 : wstep d s2 = (wSaveFail d id s2, true) := by
          simp only [wstep, hid]
          rw [if_neg hm2, if_neg hcv, if_pos hsv]
        have hbrk2 : lim ≤ s2.docCount := by
          rw [hdc]
          exact hbrk
        have e2 : wloop lim (d :: ds') s2 = wSaveFail d id s2 := by
          rw [wloop_cons, if_neg hib2, hstep2, if_pos ⟨rfl, hbrk2⟩]
        rw [e1] at hfs ⊢
        rw [e2]
        refine ⟨hfl, hdc, hfs, ?_⟩
        show (wRenderErrs d id s2 ++ _).length ≤ (wRenderErrs d id s1 ++ _).length
        simp only [List.length_append, List.length_cons, List.length_nil,
          wRenderErrs_length]
        omega
      · have e1 : wloop lim (d :: ds') s1 = wloop lim ds' (wSaveFail d id s1) := by
          rw [wloop_cons, if_neg hib, hstep1, if_neg (fun h => hbrk h.2)]
        have hm2 : wfilename id ∉ s2.fs := by
          rw [hfs, e1]
          intro hx
          obtain ⟨d', hd', he⟩ := wloop_fs_new lim ds' (wSaveFail d id s1) hx hm1
          exact hfn' (List.mem_filterMap.2 ⟨d', hd', he⟩)
        have hstep2 : wstep d s2 = (wSaveFail d id s2, true) := by
          simp only [wstep, hid]
          rw [if_neg hm2, if_neg hcv, if_pos hsv]
        have hbrk2 : ¬ lim ≤ s2.docCount := by
          rw [hdc]
          exact hbrk
        have e2 : wloop lim (d :: ds') s2 = wloop lim ds' (wSaveFail d id s2) := by
          rw [wloop_cons, if_neg hib2, hstep2, if_neg (fun h => hbrk2 h.2)]
        rw [e1] at hfs ⊢
        rw [e2]
        refine ih _ _ hnd' ?_ ?_ ?_ ?_ ?_ hfs
        · simp only [wSaveFail]
          omega
        · simp [wSaveFail, hi]
        · simp [wSaveFail, hdc]
        · simp [wSaveFail, hfl]
        · simp only [wSaveFail, List.length_append, List.length_cons,
            List.length_nil, wRenderErrs_length]
          omega
    · -- run 1 creates the file; run 2 finds it and skips
      have hstep1 : wstep d s1 = (wCreate d id s1, true) := by
        simp only [wstep, hid]
        rw [if_neg hm1, if_neg hcv, if_neg hsv]
      have hfn_mem : wfilename id ∈ (wCreate d id s1).fs := by
        show wfilename id ∈ s1.fs ++ [wfilename id]
        simp
      by_cases hbrk : lim ≤ s1.docCount + 1
      · have e1 : wloop lim (d :: ds') s1 = wCreate d id s1 := by
          rw [wloop_cons, if_neg hib, hstep1, if_pos ⟨rfl, hbrk⟩]
        have hm2 : wfilename id ∈ s2.fs := by
          rw [hfs, e1]
          exact hfn_mem
        have hstep2 : wstep d s2 = (wSkip (wfilename id) s2, false) := by
          simp only [wstep, hid]
          rw [if_pos hm2]
        have e2 : wloop lim (d :: ds') s2 = wloop lim ds' (wSkip (wfilename id) s2) := by
          rw [wloop_cons, if_neg hib2, hstep2, if_neg (by simp)]
        have hstop : wloop lim ds' (wSkip (wfilename id) s2) = wSkip (wfilename id) s2 := by
          refine wloop_stop lim ds' _ ?_
          show lim ≤ s2.i + 1
          rw [hi]
          omega
        rw [e1] at hfs ⊢
        rw [e2, hstop]
        refine ⟨?_, ?_, ?_, ?_⟩
        · show s2.files ++ _ = s1.files ++ _
          rw [hfl]
        · show s2.docCount + 1 = s1.docCount + 1
          rw [hdc]
        · exact hfs
        · show s2.errors.length ≤ (wRenderErrs d id s1).length
          rw [wRenderErrs_length]
          omega
      · have e1 : wloop lim (d :: ds') s1 = wloop lim ds' (wCreate d id s1) := by
          rw [wloop_cons, if_neg hib, hstep1, if_neg (fun h => hbrk h.2)]
        have hm2 : wfilename id ∈ s2.fs := by
          rw [hfs, e1]
          exact wloop_fs_mono lim ds' _ hfn_mem
        have hstep2 : wstep d s2 = (wSkip (wfilename id) s2, false) := by
          simp only [wstep, hid]
          rw [if_pos hm2]
        have e2 : wloop lim (d :: ds') s2 = wloop lim ds' (wSkip (wfilename id) s2) := by
          rw [wloop_cons, if_neg hib2, hstep2, if_neg (by simp)]
        rw [e1] at hfs ⊢
        rw [e2]
        refine ih _ _ hnd' ?_ ?_ ?_ ?_ ?_ hfs
        · simp only [wCreate]
          omega
        · simp [wSkip, wCreate, hi]
        · simp [wSkip, wCreate, hdc]
        · simp [wSkip, wCreate, hfl]
        · show s2.errors.length ≤ (wRenderErrs d id s1).length
          rw [wRenderErrs_length]
          omega

/-- C9 (amended): provided no two documents map to the same output
filename, a second run of the document loop over the directory produced
by the first run yields the same `files_created` list (hence the same
file count), the same `docs_extracted`, writes nothing new (the final
directory is unchanged), and records no more errors than the first run —
every already-materialized document is counted as a skip-success. -/
theorem C9_idempotent_skip_amended (docs : List WDoc) (lim : Nat) (fs0 : List String)
    (hnd : (docs.filterMap flnm).Nodup) :
    (wextract docs lim (wextract docs lim fs0).fs).files
        = (wextract docs lim fs0).files
    ∧ (wextract docs lim (wextract docs lim fs0).fs).docCount
        = (wextract docs lim fs0).docCount
    ∧ (wextract docs lim (wextract docs lim fs0).fs).fs
        = (wextract docs lim fs0).fs
    ∧ (wextract docs lim (wextract docs lim fs0).fs).errors.length
        ≤ (wextract docs lim fs0).errors.length
    ∧ (wsummary lim (wextract docs lim (wextract docs lim fs0).fs)).filesCreated
        = (wsummary lim (wextract docs lim fs0)).filesCreated := by
  obtain ⟨h1, h2, h3, h4⟩ :=
    wloop_replay lim docs ⟨0, 0, [], [], fs0⟩
      ⟨0, 0, [], [], (wextract docs lim fs0).fs⟩ hnd
      (Nat.le_refl 0) rfl rfl rfl (Nat.le_refl 0) rfl
  refine ⟨h1, h2, h3, h4, ?_⟩
  show (wextract docs lim (wextract docs lim fs0).fs).files.length
      = (wextract docs lim fs0).files.length
  rw [show (wextract docs lim (wextract docs lim fs0).fs).files
      = (wextract docs lim fs0).files from h1]

/-- C9 witness: the amended theorem applied to two distinct good
documents over an empty directory. -/
theorem C9_idempotent_skip_witness :
    (wextract [wgood ("1"), wgood ("2")] 5
        (wextract [wgood ("1"), wgood ("2")] 5 []).fs).files
      = (wextract [wgood ("1"), wgood ("2")] 5 []).files
    ∧ (wextract [wgood ("1"), wgood ("2")] 5
        (wextract [wgood ("1"), wgood ("2")] 5 []).fs).docCount
      = (wextract [wgood ("1"), wgood ("2")] 5 []).docCount
    ∧ (wextract [wgood ("1"), wgood ("2")] 5
        (wextract [wgood ("1"), wgood ("2")] 5 []).fs).fs
      = (wextract [wgood ("1"), wgood ("2")] 5 []).fs
    ∧ (wextract [wgood ("1"), wgood ("2")] 5
        (wextract [wgood ("1"), wgood ("2")] 5 []).fs).errors.length
      ≤ (wextract [wgood ("1"), wgood ("2")] 5 []).errors.length
    ∧ (wsummary 5 (wextract [wgood ("1"), wgood ("2")] 5
        (wextract [wgood ("1"), wgood ("2")] 5 []).fs)).filesCreated
      = (wsummary 5 (wextract [wgood ("1"), wgood ("2")] 5 [])).filesCreated :=
  C9_idempotent_skip_amended [wgood ("1"), wgood ("2")] 5 [] (by decide)

/-- A document whose save fails, sharing its identifier with a later
good document. -/
def wdupFail : WDoc := ⟨some ("x"), false, false, true⟩

/-- A good document with the same identifier `x`. -/
def wdupGood : WDoc := ⟨some ("x"), false, false, false⟩

/-- C9 counterexample: when a failing document shares its output filename
with a later succeeding one, the second run counts the failed document as
a skip-success (its file now exists, created by the other document), so
the file count and `docs_extracted` of the second run differ from the
first (2 versus 1) — the claim's "same file count" fails as stated. -/
theorem C9_counterexample :
    (wextract [wdupFail, wdupGood] 10 []).files.length = 1
    ∧ (wextract [wdupFail, wdupGood] 10
        (wextract [wdupFail, wdupGood] 10 []).fs).files.length = 2
    ∧ (wextract [wdupFail, wdupGood] 10 []).docCount = 1
    ∧ (wextract [wdupFail, wdupGood] 10
        (wextract [wdupFail, wdupGood] 10 []).fs).docCount = 2 := by
  decide

/-! ### Claims C10 and C7 -/

/-- The two dictionary shapes `extract_wikir_to_pdf` returns: the summary
of api.py lines 363–373, or the `{"status": "error", "message": str(e)}`
dictionary of lines 379–383 (the traceback field is not modelled). -/
inductive WResult where
  | summary (s : WSummary)
  | errorDict (message : String)
deriving DecidableEq

/-- api.py lines 193–383 at its boundary.  `mkdirOk` models whether
`os.makedirs(output_dir, exist_ok=True)` (line 206, outside the `try`)
succeeds: when it raises, the exception propagates to the caller, which
is the `Except.error` case.  `load` models `ir_datasets.load` and
`docs_iter()` (lines 219–224, inside the `try`): a load failure is caught
at line 375 and returned as the error dictionary.  The clamp of lines
209–212 caps the limit at 500 (`None` means 500). -/
def extract_wikir_to_pdf (mkdirOk : Bool) (load : Except String (List WDoc))
    (limit : Option Nat) (fs0 : List String) : Except String WResult :=
  if !mkdirOk then .error ("OSError: cannot create output directory")
  else
    let lim := match limit with
      | none => 500
      | some l => if 500 < l then 500 else l
    match load with
    | .error e => .ok (.errorDict e)
    | .ok docs => .ok (.summary (wsummary lim (wextract docs lim fs0)))

/-- Did the call return a dictionary (rather than raise)? -/
def exceptReturns {ε α : Type} : Except ε α → Bool
  | .ok _ => true
  | .error _ => false

/-- The job-status update of the wikir extraction thread (api.py lines
416–458): an exception raised by the call makes the `except` branch store
`failed`; otherwise `jobs[job_id]["status"] = result.get("status",
"completed")` stores the returned dictionary's own status string verbatim
(both dictionary shapes carry a `status` key, so the `"completed"`
default is dead). -/
def wikirJobStatus (r : Except String WResult) : String :=
  match r with
  | .error _ => ("failed")
  | .ok (.summary s) => s.status
  | .ok (.errorDict _) => ("error")

/-- C10 counterexample: `os.makedirs` sits outside the `try`, so when
creating the output directory fails the function raises instead of
returning a status dictionary — the claim's "never propagates an
exception" fails. -/
theorem C10_counterexample :
    exceptReturns (extract_wikir_to_pdf false (.ok []) (some 5) []) = false := by
  decide

/-- C10 (amended): once the output directory has been created, the
extractor always returns a dictionary and never raises; any failure
inside the `try` block — in particular a dataset-load failure — yields
the dictionary with status `error` carrying the exception text.  A
failure of `os.makedirs` itself (outside the `try`) still propagates. -/
theorem C10_boundary_totality_amended :
    (∀ (load : Except String (List WDoc)) (limit : Option Nat) (fs0 : List String),
      exceptReturns (extract_wikir_to_pdf true load limit fs0) = true)
    ∧ (∀ (e : String) (limit : Option Nat) (fs0 : List String),
      extract_wikir_to_pdf true (.error e) limit fs0 = .ok (.errorDict e)) := by
  constructor
  · intro load limit fs0
    rcases load with e | docs
    · rfl
    · rfl
  · intro e limit fs0
    rfl

lemma wsummary_status (lim : Nat) (st : WState) :
    (wsummary lim st).status = ("success") ∨ (wsummary lim st).status = ("warning") := by
  unfold wsummary
  by_cases h : 0 < st.docCount
  · left
    simp [h]
  · right
    simp [h]

/-- C7: evaluating the job façade at the failing input.  A wikir
extraction over a dataset with one extractable document returns a summary
whose status is `success`; the job thread stores that string verbatim, so
the job record's status is `success` — not one of the claimed
`{running, completed, failed}`.  (The parallel analysis path maps its
results onto `completed`/`failed`, and the polling client waits only for
`completed`/`failed`, which is why storing `success`, `warning` or
`error` is a slip rather than a design choice.) -/
theorem C7_status_domain_violated :
    wikirJobStatus (extract_wikir_to_pdf true (.ok [wgood ("1")]) (some 10) [])
      = ("success")
    ∧ (("success") = ("running") ∨ ("success") = ("completed")
        ∨ ("success") = ("failed")) = False := by
  refine ⟨by decide, ?_⟩
  simp
